import Mathlib

/-!
Shallow embedding of `src/maplist.py` (Maplist-Generator).

The embedded core is the pipeline `generate_maplist`:
  `get_collection_item_ids` (one POST to the collection endpoint, dynamic
  JSON indexing), `get_published_file_details` (batches of `BATCH_SIZE = 50`,
  one POST per batch), then filter/render/sort and a single file write.

JSON bodies are modelled by the `Json` inductive; Python's dynamic access
(`d[k]`, `l[0]`, `.get`, iteration, truthiness, `str()`) is modelled by
explicit functions returning `Except Err`; the HTTP transport is an oracle
(`Remote`) mapping the posted form data to an outcome; the filesystem is a
map from paths to file contents plus a set of created directories, threaded
explicitly.  Real-time pacing (`time.sleep`) is not modelled: it has no
effect on any value computed.
-/

/-- A parsed JSON value, as produced by `response.json()`. -/
inductive Json where
  | null : Json
  | bool : Bool → Json
  | num : Int → Json
  | str : String → Json
  | arr : List Json → Json
  | obj : List (String × Json) → Json
  deriving Repr

/-- Errors the Python code can raise, plus the spec's taxonomy name
`malformedResponse`, which lets us state that the code never produces it. -/
inductive Err where
  | connectionError : Err
  | httpError : Nat → Err
  | keyError : String → Err
  | indexError : Err
  | typeError : Err
  | attributeError : Err
  | malformedResponse : Err
  deriving Repr, DecidableEq

/-- Outcome of one HTTP POST: a network failure (unreachable / timeout), or a
final response with a status code and a parsed JSON body. -/
inductive HttpResult where
  | failure : HttpResult
  | response : Nat → Json → HttpResult

/-- `requests.post(...)` followed by `r.raise_for_status()` and `r.json()`:
network failure raises `ConnectionError`; `raise_for_status` raises
`HTTPError` exactly for 4xx/5xx status codes; otherwise the parsed body is
returned. -/
def httpPost (res : HttpResult) : Except Err Json :=
  match res with
  | .failure => .error .connectionError
  | .response status body =>
      if 400 ≤ status ∧ status < 600 then .error (.httpError status) else .ok body

/-- Python `j[k]` for a string key: dict lookup raising `KeyError` when the
key is missing; subscripting any other value raises `TypeError`. -/
def getKey (j : Json) (k : String) : Except Err Json :=
  match j with
  | .obj kvs =>
      match kvs.lookup k with
      | some v => .ok v
      | none => .error (.keyError k)
  | _ => .error .typeError

/-- Python `j[0]`: list indexing raising `IndexError` when out of range;
string indexing yields a one-character string; indexing a dict with an
integer key raises `KeyError`; other values raise `TypeError`. -/
def getIndexZero (j : Json) : Except Err Json :=
  match j with
  | .arr l =>
      match l.head? with
      | some v => .ok v
      | none => .error .indexError
  | .str s =>
      match s.data with
      | [] => .error .indexError
      | c :: _ => .ok (.str (String.singleton c))
  | .obj _ => .error (.keyError "0")
  | _ => .error .typeError

/-- Python iteration (`for x in j`, `list.extend(j)`): lists yield their
elements, strings yield one-character strings, dicts yield their keys,
anything else raises `TypeError`. -/
def pyIter (j : Json) : Except Err (List Json) :=
  match j with
  | .arr l => .ok l
  | .str s => .ok (s.toList.map (fun c => .str (String.singleton c)))
  | .obj kvs => .ok (kvs.map (fun kv => .str kv.1))
  | _ => .error .typeError

/-- Python `d.get(k)`: `none` when the key is absent; calling `.get` on a
non-dict raises `AttributeError`. -/
def pyGet (j : Json) (k : String) : Except Err (Option Json) :=
  match j with
  | .obj kvs => .ok (kvs.lookup k)
  | _ => .error .attributeError

/-- Python truthiness of a JSON value. -/
def pyTruthy (j : Json) : Bool :=
  match j with
  | .null => false
  | .bool b => b
  | .num n => n != 0
  | .str s => s != ""
  | .arr l => !l.isEmpty
  | .obj kvs => !kvs.isEmpty

/-- Python `repr()` of a JSON value (used by `str()` on containers).  String
escaping inside `repr` of a string is not modelled (no claim exercises it). -/
def pyRepr : Json → String
  | .null => "None"
  | .bool true => "True"
  | .bool false => "False"
  | .num n => toString n
  | .str s => "'" ++ s ++ "'"
  | .arr l => "[" ++ String.intercalate ", " (l.attach.map (fun x => pyRepr x.1)) ++ "]"
  | .obj kvs =>
      "\x7b" ++
        String.intercalate ", "
          (kvs.attach.map (fun x => "'" ++ x.1.1 ++ "': " ++ pyRepr x.1.2)) ++
        "\x7d"
termination_by j => sizeOf j
decreasing_by
  · have := List.sizeOf_lt_of_mem x.2
    simp at *
    omega
  · have := List.sizeOf_lt_of_mem x.2
    obtain ⟨⟨k, v⟩, hx⟩ := x
    simp at *
    omega

/-- Python `str()` as used by f-string interpolation. -/
def pyStr (j : Json) : String :=
  match j with
  | .str s => s
  | _ => pyRepr j

/-- Python `str.strip()`: drop leading and trailing whitespace (the ASCII
whitespace characters; Python additionally strips rarer Unicode spaces, which
no claim exercises). -/
def pyStrip (s : String) : String :=
  String.mk (((s.data.dropWhile Char.isWhitespace).reverse.dropWhile
    Char.isWhitespace).reverse)

/-- Whether a string starts with the path separator. -/
def headIsSep (s : String) : Bool :=
  s.data.head? == some '/'

/-- Whether a string ends with the path separator. -/
def lastIsSep (s : String) : Bool :=
  s.data.getLast? == some '/'

/-- Lexicographic comparison of character lists by Unicode code point, the
order Python's `<` on `str` induces. -/
def charListLe : List Char → List Char → Bool
  | [], _ => true
  | _ :: _, [] => false
  | a :: as, b :: bs =>
      if a.toNat < b.toNat then true
      else if b.toNat < a.toNat then false
      else charListLe as bs

/-- Python string comparison `a <= b`: lexicographic by code point. -/
def strLeB (a b : String) : Bool :=
  charListLe a.data b.data

/-- The fixed remote state: each endpoint maps the posted form data to one
HTTP outcome.  Two runs "against the same remote state" evaluate the same
`Remote`. -/
structure Remote where
  collection : List (String × Json) → HttpResult
  details : List (String × Json) → HttpResult

/-- Filesystem state: file contents by path, plus the set of directories that
exist (as a list of path strings). -/
structure FS where
  files : String → Option String
  dirs : List String

/-- `os.makedirs(d, exist_ok=True)`: ensures the directory exists; existing
files are untouched. -/
def makedirs (d : String) (fs : FS) : FS :=
  { fs with dirs := if d ∈ fs.dirs then fs.dirs else d :: fs.dirs }

/-- `open(path, "w") ... f.write(content)`: mode `"w"` truncates, so the
path's previous content (if any) is discarded and replaced. -/
def writeFile (fs : FS) (path content : String) : FS :=
  { fs with files := fun p => if p = path then some content else fs.files p }

/-- POSIX-style `os.path.join(a, b)`: an absolute second component wins;
otherwise a single separator is inserted unless one is already present. -/
def pathJoin (a b : String) : String :=
  if headIsSep b then b
  else if a = "" then b
  else if lastIsSep a then a ++ b
  else a ++ "/" ++ b

/-- A path is absolute when it starts with the separator. -/
def isAbsolutePath (p : String) : Bool :=
  headIsSep p

/-- The form data of the single collection request (maplist.py lines 27-30). -/
def collectionRequestData (collection_id : String) : List (String × Json) :=
  [("collectioncount", .str "1"), ("publishedfileids[0]", .str collection_id)]

/-- The dynamic descent `j["response"]["collectiondetails"][0]["children"]`
(maplist.py line 34). -/
def extractChildren (j : Json) : Except Err Json := do
  let resp ← getKey j "response"
  let cd ← getKey resp "collectiondetails"
  let first ← getIndexZero cd
  getKey first "children"

/-- `get_collection_item_ids` (maplist.py lines 26-34): one POST, then the
comprehension `[c["publishedfileid"] for c in ...children]`. -/
def get_collection_item_ids (remote : Remote) (collection_id : String) :
    Except Err (List Json) := do
  let body ← httpPost (remote.collection (collectionRequestData collection_id))
  let children ← extractChildren body
  let cs ← pyIter children
  cs.mapM (fun c => getKey c "publishedfileid")

/-- `BATCH_SIZE` (maplist.py line 23). -/
def BATCH_SIZE : Nat := 50

/-- Structural helper for `batchChunks`: the fuel argument only drives
termination and is irrelevant as soon as it dominates the list length (see
`batchChunksAux_congr`). -/
def batchChunksAux : Nat → List Json → List (List Json)
  | _, [] => []
  | 0, _ :: _ => []
  | fuel + 1, x :: xs =>
      (x :: xs).take BATCH_SIZE :: batchChunksAux fuel ((x :: xs).drop BATCH_SIZE)

/-- The slices `ids[i:i+BATCH_SIZE]` for `i in range(0, len(ids), BATCH_SIZE)`
(maplist.py lines 39-40): `batchChunks l = l.take 50 :: batchChunks (l.drop 50)`
for nonempty `l` (see `batchChunks_cons`). -/
def batchChunks (l : List Json) : List (List Json) :=
  batchChunksAux l.length l

/-- The form data of one detail request: `itemcount` is the chunk length and
each member ID sits at its positionally-indexed field (maplist.py lines
41-43). -/
def batchRequestData (batch : List Json) : List (String × Json) :=
  ("itemcount", .str (toString batch.length)) ::
    ((List.range batch.length).zip batch).map
      (fun p => ("publishedfileids[" ++ toString p.1 ++ "]", p.2))

/-- One batch iteration after the POST: `raise_for_status`, then iterate
`r.json()["response"]["publishedfiledetails"]` for `result.extend`
(maplist.py lines 45-47). -/
def detailBatchRecords (res : HttpResult) : Except Err (List Json) := do
  let body ← httpPost res
  let resp ← getKey body "response"
  let pfd ← getKey resp "publishedfiledetails"
  pyIter pfd

/-- The batch loop, also recording the form data of every request actually
issued (requests after a raised exception are never issued). -/
def runBatches (remote : Remote) :
    List (List Json) → List (List (String × Json)) × Except Err (List Json)
  | [] => ([], .ok [])
  | b :: bs =>
      let req := batchRequestData b
      match detailBatchRecords (remote.details req) with
      | .error e => ([req], .error e)
      | .ok records =>
          let rest := runBatches remote bs
          (req :: rest.1,
           match rest.2 with
           | .error e => .error e
           | .ok rs => .ok (records ++ rs))

/-- `get_published_file_details` (maplist.py lines 37-50): the aggregated
records of the batch loop. -/
def get_published_file_details (remote : Remote) (ids : List Json) :
    Except Err (List Json) :=
  (runBatches remote (batchChunks ids)).2

/-- The form data of the detail requests issued by
`get_published_file_details`, in issue order. -/
def detailRequests (remote : Remote) (ids : List Json) :
    List (List (String × Json)) :=
  (runBatches remote (batchChunks ids)).1

/-- One element of the generator on maplist.py lines 58-59: the filter
`if item.get("title")` and the rendering
`f"{item['title'].strip()}:{item['publishedfileid']}"`; `none` means the
record was filtered out. -/
def renderItem (item : Json) : Except Err (Option String) := do
  let t ← pyGet item "title"
  match t with
  | none => return none
  | some tv =>
      if pyTruthy tv then do
        let s ← (match tv with
          | .str s => Except.ok s
          | _ => Except.error Err.attributeError)
        let fid ← getKey item "publishedfileid"
        return some (pyStrip s ++ ":" ++ pyStr fid)
      else
        return none

/-- Forcing the whole generator of maplist.py lines 58-59 (as `sorted(...)`
does), keeping the surviving rendered strings in input order. -/
def buildLines (items : List Json) : Except Err (List String) := do
  let opts ← items.mapM renderItem
  return opts.filterMap id

/-- Python `sorted` on strings: the non-decreasing reordering of the input,
lexicographic by Unicode code point.  Realised here as insertion sort: since
`≤` on `String` is a linear order, every sorting algorithm produces this same
list, so the choice of algorithm is immaterial. -/
def sortStrings (l : List String) : List String :=
  List.insertionSort (fun a b => strLeB a b = true) l

/-- `lines = sorted(...)` (maplist.py lines 57-60). -/
def buildSortedLines (items : List Json) : Except Err (List String) := do
  let raw ← buildLines items
  return sortStrings raw

/-- The fallible prefix of `generate_maplist` (maplist.py lines 54-60): both
fetches and the forced, sorted generator; every remote or parsing exception
propagates from here, before any filesystem operation runs. -/
def pipelineLines (remote : Remote) (collection_id : String) :
    Except Err (List String) := do
  let ids ← get_collection_item_ids remote collection_id
  let items ← get_published_file_details remote ids
  buildSortedLines items

/-- `generate_maplist` (maplist.py lines 53-68).  The filesystem is returned
alongside the result; when an exception propagates the filesystem is the one
the caller supplied, untouched, because every fallible step precedes
`os.makedirs`. -/
def generate_maplist (remote : Remote) (fs : FS)
    (collection_id output_dir : String) : FS × Except Err String :=
  match pipelineLines remote collection_id with
  | .error e => (fs, .error e)
  | .ok lines =>
      let fs1 := makedirs output_dir fs
      let path := pathJoin output_dir "maplist.txt"
      let fs2 := writeFile fs1 path (String.intercalate "\n" lines)
      (fs2, .ok path)

/-- Whether a child JSON value carries a `publishedfileid` field (a dict with
that key). -/
def hasField (j : Json) (k : String) : Bool :=
  match j with
  | .obj kvs => (kvs.lookup k).isSome
  | _ => false

/-- The spec's `TransportError` class: network failure, timeout or an
unsuccessful HTTP status. -/
def Err.isTransport : Err → Bool
  | .connectionError => true
  | .httpError _ => true
  | _ => false

/-- A generic Python indexing/lookup fault, as opposed to the spec's
dedicated `MalformedResponseError`. -/
def Err.isIndexingFault : Err → Bool
  | .keyError _ => true
  | .indexError => true
  | .typeError => true
  | _ => false

/-- The failure class named `TransportError` by the spec, at the transport
level: the POST either hits a network failure / timeout, or its final
response carries a status for which `raise_for_status` raises (4xx/5xx). -/
def transportFails (res : HttpResult) : Prop :=
  res = .failure ∨ ∃ s b, res = .response s b ∧ 400 ≤ s ∧ s < 600

/-- Fixture: a collection-endpoint body holding the given children. -/
def collectionBody (children : List Json) : Json :=
  .obj [("response", .obj [("collectiondetails",
    .arr [.obj [("children", .arr children)]])])]

/-- Fixture: a details-endpoint body holding the given records. -/
def detailsBody (records : List Json) : Json :=
  .obj [("response", .obj [("publishedfiledetails", .arr records)])]

/-- Fixture: a child entry carrying only its `publishedfileid`. -/
def childEntry (fid : String) : Json :=
  .obj [("publishedfileid", .str fid)]

/-- Fixture: a detail record with a title and an id. -/
def detailRecord (title fid : String) : Json :=
  .obj [("title", .str title), ("publishedfileid", .str fid)]

/-- Fixture: a record whose `title` and `publishedfileid` are given directly. -/
def mkRecord (t : String) (fid : Json) : Json :=
  .obj [("title", .str t), ("publishedfileid", fid)]

/-- Fixture: a remote answering both endpoints with constant outcomes. -/
def constRemote (cres dres : HttpResult) : Remote :=
  { collection := fun _ => cres, details := fun _ => dres }

/-- Fixture: an initially empty filesystem. -/
def fs0 : FS :=
  { files := fun _ => none, dirs := [] }

/-- Fixture: the details endpoint returns the same record twice. -/
def dupRemote : Remote :=
  constRemote (.response 200 (collectionBody [childEntry "1"]))
    (.response 200 (detailsBody [detailRecord "a" "1", detailRecord "a" "1"]))

/-- Fixture: a record whose title is whitespace only. -/
def wsTitleRecord : Json :=
  .obj [("title", .str "   "), ("publishedfileid", .str "5")]

/-- Fixture: the collection endpoint answers with status 300 (non-2xx yet
below the 4xx/5xx range `raise_for_status` raises for) and a valid body. -/
def status300Remote : Remote :=
  constRemote (.response 300 (collectionBody [childEntry "1"]))
    (.response 200 (detailsBody [detailRecord "a" "1"]))

/-- Fixture: the collection endpoint answers 200 with a JSON body lacking
`collectiondetails`. -/
def badShapeRemote : Remote :=
  constRemote (.response 200 (.obj [("response", .obj [])]))
    (.response 200 .null)

/-- Fixture: the collection endpoint answers HTTP 404. -/
def notFoundRemote : Remote :=
  constRemote (.response 404 .null) (.response 200 .null)

/-- Fixture: a collection with no members. -/
def emptyCollectionRemote : Remote :=
  constRemote (.response 200 (collectionBody []))
    (.response 200 (detailsBody []))

/-- Fixture: a two-member collection whose detail records arrive in one
order... -/
def okRemote : Remote :=
  constRemote (.response 200 (collectionBody [childEntry "1", childEntry "2"]))
    (.response 200 (detailsBody [detailRecord "b" "2", detailRecord "a" "1"]))

/-- Fixture: ...and the same remote state with the records swapped inside the
batch response. -/
def okRemoteSwapped : Remote :=
  constRemote (.response 200 (collectionBody [childEntry "1", childEntry "2"]))
    (.response 200 (detailsBody [detailRecord "a" "1", detailRecord "b" "2"]))

/-- Fixture: a collection whose single child lacks `publishedfileid`. -/
def noFidChildRemote : Remote :=
  constRemote (.response 200 (collectionBody [.obj [("title", .str "x")]]))
    (.response 200 .null)

/-! ### Helper lemmas about the embedded operations -/

theorem exceptBind_eq_ok {α β : Type} (x : Except Err α) (f : α → Except Err β)
    (b : β) : (x >>= f) = .ok b ↔ ∃ a, x = .ok a ∧ f a = .ok b := by
  cases x with
  | error e => simp [show ((Except.error e : Except Err α) >>= f) = Except.error e from rfl]
  | ok a => simp [show (Except.ok a >>= f) = f a from rfl]

theorem exceptBind_eq_error {α β : Type} (x : Except Err α) (f : α → Except Err β)
    (e : Err) : (x >>= f) = .error e ↔ x = .error e ∨ ∃ a, x = .ok a ∧ f a = .error e := by
  cases x with
  | error e' => simp [show ((Except.error e' : Except Err α) >>= f) = Except.error e' from rfl]
  | ok a => simp [show (Except.ok a >>= f) = f a from rfl]

theorem exceptIsOk_iff {α : Type} (x : Except Err α) :
    x.isOk = true ↔ ∃ a, x = .ok a := by
  cases x <;> simp [Except.isOk, Except.toBool]

theorem mapM_ok_length {α β : Type} (f : α → Except Err β) (xs : List α)
    (ys : List β) (h : xs.mapM f = .ok ys) : ys.length = xs.length := by
  induction xs generalizing ys with
  | nil =>
      rw [List.mapM_nil] at h
      cases h
      rfl
  | cons x xs ih =>
      rw [List.mapM_cons] at h
      rw [exceptBind_eq_ok] at h
      obtain ⟨y, hy, h⟩ := h
      rw [exceptBind_eq_ok] at h
      obtain ⟨ys', hys, h⟩ := h
      cases h
      simp [ih ys' hys]

theorem mapM_ok_forall {α β : Type} (f : α → Except Err β) (xs : List α)
    (ys : List β) (h : xs.mapM f = .ok ys) : ∀ x ∈ xs, ∃ y, f x = .ok y := by
  induction xs generalizing ys with
  | nil => simp
  | cons x xs ih =>
      rw [List.mapM_cons] at h
      rw [exceptBind_eq_ok] at h
      obtain ⟨y, hy, h⟩ := h
      rw [exceptBind_eq_ok] at h
      obtain ⟨ys', hys, h⟩ := h
      intro a ha
      rcases List.mem_cons.mp ha with rfl | ha
      · exact ⟨y, hy⟩
      · exact ih ys' hys a ha

theorem mapM_ok_exists {α β : Type} (f : α → Except Err β) (xs : List α)
    (h : ∀ x ∈ xs, ∃ y, f x = .ok y) : ∃ ys, xs.mapM f = .ok ys := by
  induction xs with
  | nil => exact ⟨[], by rw [List.mapM_nil]; rfl⟩
  | cons x xs ih =>
      obtain ⟨y, hy⟩ := h x (List.mem_cons_self x xs)
      obtain ⟨ys, hys⟩ := ih (fun a ha => h a (List.mem_cons_of_mem x ha))
      refine ⟨y :: ys, ?_⟩
      rw [List.mapM_cons, exceptBind_eq_ok]
      exact ⟨y, hy, by rw [exceptBind_eq_ok]; exact ⟨ys, hys, rfl⟩⟩

theorem mapM_perm {α β : Type} (f : α → Except Err β) {xs₁ xs₂ : List α}
    (hp : xs₁.Perm xs₂) {ys₁ : List β} (h : xs₁.mapM f = .ok ys₁) :
    ∃ ys₂, xs₂.mapM f = .ok ys₂ ∧ ys₁.Perm ys₂ := by
  induction hp generalizing ys₁ with
  | nil => exact ⟨ys₁, h, List.Perm.refl ys₁⟩
  | cons a hp ih =>
      rw [List.mapM_cons, exceptBind_eq_ok] at h
      obtain ⟨y, hy, h⟩ := h
      rw [exceptBind_eq_ok] at h
      obtain ⟨ys, hys, h⟩ := h
      cases h
      obtain ⟨ys₂, hys₂, hperm⟩ := ih hys
      refine ⟨y :: ys₂, ?_, List.Perm.cons y hperm⟩
      rw [List.mapM_cons, exceptBind_eq_ok]
      exact ⟨y, hy, by rw [exceptBind_eq_ok]; exact ⟨ys₂, hys₂, rfl⟩⟩
  | swap a b l =>
      rw [List.mapM_cons, exceptBind_eq_ok] at h
      obtain ⟨y, hy, h⟩ := h
      rw [exceptBind_eq_ok] at h
      obtain ⟨ys, hys, h⟩ := h
      rw [List.mapM_cons, exceptBind_eq_ok] at hys
      obtain ⟨z, hz, hys⟩ := hys
      rw [exceptBind_eq_ok] at hys
      obtain ⟨t, ht, hys⟩ := hys
      cases hys
      cases h
      refine ⟨z :: y :: t, ?_, List.Perm.swap z y t⟩
      rw [List.mapM_cons, exceptBind_eq_ok]
      refine ⟨z, hz, ?_⟩
      rw [exceptBind_eq_ok]
      refine ⟨y :: t, ?_, rfl⟩
      rw [List.mapM_cons, exceptBind_eq_ok]
      exact ⟨y, hy, by rw [exceptBind_eq_ok]; exact ⟨t, ht, rfl⟩⟩
  | trans hp₁ hp₂ ih₁ ih₂ =>
      obtain ⟨ys₂, hys₂, hperm₂⟩ := ih₁ h
      obtain ⟨ys₃, hys₃, hperm₃⟩ := ih₂ hys₂
      exact ⟨ys₃, hys₃, hperm₂.trans hperm₃⟩

theorem batchChunksAux_congr (fuel₁ : Nat) : ∀ (fuel₂ : Nat) (l : List Json),
    l.length ≤ fuel₁ → l.length ≤ fuel₂ →
    batchChunksAux fuel₁ l = batchChunksAux fuel₂ l := by
  induction fuel₁ with
  | zero =>
      intro fuel₂ l h₁ _
      cases l with
      | nil => cases fuel₂ <;> rfl
      | cons x xs => simp at h₁
  | succ f ih =>
      intro fuel₂ l h₁ h₂
      cases l with
      | nil => cases fuel₂ <;> rfl
      | cons x xs =>
          cases fuel₂ with
          | zero => simp at h₂
          | succ f₂ =>
              have hlen : ((x :: xs).drop BATCH_SIZE).length ≤ f := by
                simp only [List.length_drop, List.length_cons, BATCH_SIZE]
                simp only [List.length_cons] at h₁
                omega
              have hlen₂ : ((x :: xs).drop BATCH_SIZE).length ≤ f₂ := by
                simp only [List.length_drop, List.length_cons, BATCH_SIZE]
                simp only [List.length_cons] at h₂
                omega
              simp only [batchChunksAux]
              rw [ih f₂ _ hlen hlen₂]

theorem batchChunks_nil : batchChunks [] = [] := rfl

theorem batchChunks_cons (x : Json) (xs : List Json) :
    batchChunks (x :: xs) =
      (x :: xs).take BATCH_SIZE :: batchChunks ((x :: xs).drop BATCH_SIZE) := by
  have h : batchChunks (x :: xs) =
      (x :: xs).take BATCH_SIZE :: batchChunksAux xs.length ((x :: xs).drop BATCH_SIZE) := rfl
  rw [h]
  congr 1
  exact batchChunksAux_congr xs.length _ _
    (by simp only [List.length_drop, List.length_cons, BATCH_SIZE]; omega) (le_refl _)

theorem batchChunksAux_length (fuel : Nat) : ∀ l : List Json, l.length ≤ fuel →
    (batchChunksAux fuel l).length = (l.length + BATCH_SIZE - 1) / BATCH_SIZE := by
  induction fuel with
  | zero =>
      intro l h
      cases l with
      | nil => simp [batchChunksAux, BATCH_SIZE]
      | cons x xs => simp at h
  | succ f ih =>
      intro l h
      cases l with
      | nil => simp [batchChunksAux, BATCH_SIZE]
      | cons x xs =>
          simp only [List.length_cons] at h
          have hlen : ((x :: xs).drop BATCH_SIZE).length ≤ f := by
            simp only [List.length_drop, List.length_cons, BATCH_SIZE]
            omega
          simp only [batchChunksAux, List.length_cons, ih _ hlen, List.length_drop]
          simp only [List.length_cons, BATCH_SIZE]
          omega

theorem batchChunks_length (l : List Json) :
    (batchChunks l).length = (l.length + BATCH_SIZE - 1) / BATCH_SIZE :=
  batchChunksAux_length l.length l (le_refl _)

theorem batchChunksAux_getElem (fuel : Nat) : ∀ (l : List Json) (k : Nat),
    l.length ≤ fuel → k < (batchChunksAux fuel l).length →
    (batchChunksAux fuel l)[k]? =
      some ((l.drop (BATCH_SIZE * k)).take BATCH_SIZE) := by
  induction fuel with
  | zero =>
      intro l k h hk
      cases l with
      | nil => simp [batchChunksAux] at hk
      | cons x xs => simp at h
  | succ f ih =>
      intro l k h hk
      cases l with
      | nil => simp [batchChunksAux] at hk
      | cons x xs =>
          simp only [List.length_cons] at h
          have hlen : ((x :: xs).drop BATCH_SIZE).length ≤ f := by
            simp only [List.length_drop, List.length_cons, BATCH_SIZE]
            omega
          cases k with
          | zero => simp [batchChunksAux]
          | succ k =>
              simp only [batchChunksAux, List.getElem?_cons_succ]
              simp only [batchChunksAux, List.length_cons] at hk
              rw [ih _ k hlen (by omega), List.drop_drop]
              have harith : BATCH_SIZE + BATCH_SIZE * k = BATCH_SIZE * (k + 1) := by
                simp only [BATCH_SIZE]
                omega
              rw [harith]

theorem batchChunks_getElem (l : List Json) (k : Nat)
    (hk : k < (batchChunks l).length) :
    (batchChunks l)[k]? = some ((l.drop (BATCH_SIZE * k)).take BATCH_SIZE) :=
  batchChunksAux_getElem l.length l k (le_refl _) hk

theorem batchChunksAux_flatten (fuel : Nat) : ∀ l : List Json, l.length ≤ fuel →
    (batchChunksAux fuel l).flatten = l := by
  induction fuel with
  | zero =>
      intro l h
      cases l with
      | nil => rfl
      | cons x xs => simp at h
  | succ f ih =>
      intro l h
      cases l with
      | nil => rfl
      | cons x xs =>
          simp only [List.length_cons] at h
          have hlen : ((x :: xs).drop BATCH_SIZE).length ≤ f := by
            simp only [List.length_drop, List.length_cons, BATCH_SIZE]
            omega
          simp only [batchChunksAux, List.flatten_cons, ih _ hlen,
            List.take_append_drop]

theorem batchChunks_flatten (l : List Json) : (batchChunks l).flatten = l :=
  batchChunksAux_flatten l.length l (le_refl _)

theorem runBatches_fst_of_ok (remote : Remote) (bs : List (List Json))
    (h : ((runBatches remote bs).2).isOk = true) :
    (runBatches remote bs).1 = bs.map batchRequestData := by
  induction bs with
  | nil => rfl
  | cons b bs ih =>
      rcases hd : detailBatchRecords (remote.details (batchRequestData b)) with e | recs
      · simp only [runBatches, hd, Except.isOk, Except.toBool] at h
        exact Bool.noConfusion h
      · simp only [runBatches, hd] at h ⊢
        rcases hrest : (runBatches remote bs).2 with e | rs
        · rw [hrest] at h
          simp [Except.isOk, Except.toBool] at h
        · simp only [List.map_cons, List.cons.injEq, true_and]
          exact ih (by rw [hrest]; rfl)

theorem runBatches_error_after_ok_prefix (remote : Remote)
    (pre : List (List Json)) (b : List Json) (post : List (List Json)) (e : Err)
    (hpre : ∀ b' ∈ pre,
      ((detailBatchRecords (remote.details (batchRequestData b'))).isOk = true))
    (hb : detailBatchRecords (remote.details (batchRequestData b)) = .error e) :
    (runBatches remote (pre ++ b :: post)).2 = .error e := by
  induction pre with
  | nil => simp only [List.nil_append, runBatches, hb]
  | cons p pre ih =>
      have hp := hpre p (List.mem_cons_self p pre)
      rw [exceptIsOk_iff] at hp
      obtain ⟨recs, hrecs⟩ := hp
      simp only [List.cons_append, runBatches, hrecs]
      rw [List.append_eq, ih (fun b' hb' => hpre b' (List.mem_cons_of_mem p hb'))]

theorem getKey_error_isIndexingFault (j : Json) (k : String) (e : Err)
    (h : getKey j k = .error e) : e.isIndexingFault = true := by
  unfold getKey at h
  split at h
  · split at h
    · cases h
    · cases h
      rfl
  · cases h
    rfl

theorem getIndexZero_error_isIndexingFault (j : Json) (e : Err)
    (h : getIndexZero j = .error e) : e.isIndexingFault = true := by
  unfold getIndexZero at h
  split at h
  · split at h
    · cases h
    · cases h
      rfl
  · split at h
    · cases h
      rfl
    · cases h
  · cases h
    rfl
  · cases h
    rfl

theorem extractChildren_error_isIndexingFault (j : Json) (e : Err)
    (h : extractChildren j = .error e) : e.isIndexingFault = true := by
  have hshow : extractChildren j =
      (getKey j "response" >>= fun resp =>
        getKey resp "collectiondetails" >>= fun cd =>
          getIndexZero cd >>= fun first => getKey first "children") := rfl
  rw [hshow, exceptBind_eq_error] at h
  rcases h with h | ⟨resp, _, h⟩
  · exact getKey_error_isIndexingFault _ _ _ h
  rw [exceptBind_eq_error] at h
  rcases h with h | ⟨cd, _, h⟩
  · exact getKey_error_isIndexingFault _ _ _ h
  rw [exceptBind_eq_error] at h
  rcases h with h | ⟨first, _, h⟩
  · exact getIndexZero_error_isIndexingFault _ _ h
  · exact getKey_error_isIndexingFault _ _ _ h

theorem charListLe_trans (as : List Char) : ∀ bs cs : List Char,
    charListLe as bs = true → charListLe bs cs = true →
    charListLe as cs = true := by
  induction as with
  | nil => intro bs cs _ _; rfl
  | cons a as ih =>
      intro bs cs h₁ h₂
      cases bs with
      | nil => simp [charListLe] at h₁
      | cons b bs =>
          cases cs with
          | nil => simp [charListLe] at h₂
          | cons c cs =>
              simp only [charListLe] at h₁ h₂ ⊢
              by_cases hab : a.toNat < b.toNat
              · by_cases hbc : b.toNat < c.toNat
                · rw [if_pos (Nat.lt_trans hab hbc)]
                · rw [if_neg hbc] at h₂
                  by_cases hcb : c.toNat < b.toNat
                  · rw [if_pos hcb] at h₂
                    exact Bool.noConfusion h₂
                  · rw [if_neg hcb] at h₂
                    have hac : a.toNat < c.toNat := by omega
                    rw [if_pos hac]
              · rw [if_neg hab] at h₁
                by_cases hba : b.toNat < a.toNat
                · rw [if_pos hba] at h₁
                  exact Bool.noConfusion h₁
                · rw [if_neg hba] at h₁
                  by_cases hbc : b.toNat < c.toNat
                  · have hac : a.toNat < c.toNat := by omega
                    rw [if_pos hac]
                  · rw [if_neg hbc] at h₂
                    by_cases hcb : c.toNat < b.toNat
                    · rw [if_pos hcb] at h₂
                      exact Bool.noConfusion h₂
                    · rw [if_neg hcb] at h₂
                      have hac : ¬ a.toNat < c.toNat := by omega
                      have hca : ¬ c.toNat < a.toNat := by omega
                      rw [if_neg hac, if_neg hca]
                      exact ih bs cs h₁ h₂

theorem charListLe_total (as : List Char) : ∀ bs : List Char,
    charListLe as bs = true ∨ charListLe bs as = true := by
  induction as with
  | nil => intro bs; left; rfl
  | cons a as ih =>
      intro bs
      cases bs with
      | nil => right; rfl
      | cons b bs =>
          simp only [charListLe]
          by_cases hab : a.toNat < b.toNat
          · left
            rw [if_pos hab]
          · by_cases hba : b.toNat < a.toNat
            · right
              rw [if_pos hba]
            · simp only [if_neg hab, if_neg hba]
              exact ih bs

theorem charListLe_antisymm (as : List Char) : ∀ bs : List Char,
    charListLe as bs = true → charListLe bs as = true → as = bs := by
  induction as with
  | nil =>
      intro bs _ h₂
      cases bs with
      | nil => rfl
      | cons b bs => simp [charListLe] at h₂
  | cons a as ih =>
      intro bs h₁ h₂
      cases bs with
      | nil => simp [charListLe] at h₁
      | cons b bs =>
          simp only [charListLe] at h₁ h₂
          by_cases hab : a.toNat < b.toNat
          · have hba : ¬ b.toNat < a.toNat := by omega
            rw [if_neg hba, if_pos hab] at h₂
            exact Bool.noConfusion h₂
          · by_cases hba : b.toNat < a.toNat
            · rw [if_neg hab, if_pos hba] at h₁
              exact Bool.noConfusion h₁
            · rw [if_neg hab, if_neg hba] at h₁
              rw [if_neg hba, if_neg hab] at h₂
              have hchar : a = b :=
                Char.eq_of_val_eq (UInt32.ext (show a.toNat = b.toNat by omega))
              rw [hchar, ih bs h₁ h₂]

theorem strLeB_total (a b : String) : strLeB a b = true ∨ strLeB b a = true :=
  charListLe_total a.data b.data

theorem strLeB_trans (a b c : String) (h₁ : strLeB a b = true)
    (h₂ : strLeB b c = true) : strLeB a c = true :=
  charListLe_trans a.data b.data c.data h₁ h₂

theorem strLeB_antisymm (a b : String) (h₁ : strLeB a b = true)
    (h₂ : strLeB b a = true) : a = b := by
  cases a with
  | mk as =>
      cases b with
      | mk bs => exact congrArg String.mk (charListLe_antisymm as bs h₁ h₂)

theorem sortStrings_sorted (l : List String) :
    (sortStrings l).Sorted (fun a b => strLeB a b = true) := by
  haveI : IsTotal String (fun a b => strLeB a b = true) := ⟨strLeB_total⟩
  haveI : IsTrans String (fun a b => strLeB a b = true) :=
    ⟨fun a b c => strLeB_trans a b c⟩
  exact List.sorted_insertionSort _ l

theorem sortStrings_perm (l : List String) : (sortStrings l).Perm l :=
  List.perm_insertionSort _ l

theorem sortStrings_eq_of_perm {l₁ l₂ : List String} (h : l₁.Perm l₂) :
    sortStrings l₁ = sortStrings l₂ := by
  haveI : IsAntisymm String (fun a b => strLeB a b = true) :=
    ⟨fun a b => strLeB_antisymm a b⟩
  exact List.eq_of_perm_of_sorted
    ((sortStrings_perm l₁).trans (h.trans (sortStrings_perm l₂).symm))
    (sortStrings_sorted l₁) (sortStrings_sorted l₂)

theorem exceptBind_error {α β : Type} (x : Except Err α) (f : α → Except Err β)
    (e : Err) (h : x = .error e) : (x >>= f) = .error e := by
  rw [h]
  rfl

theorem get_collection_item_ids_eq (remote : Remote) (cid : String) :
    get_collection_item_ids remote cid =
      (httpPost (remote.collection (collectionRequestData cid)) >>= fun body =>
        extractChildren body >>= fun children =>
          pyIter children >>= fun cs =>
            cs.mapM (fun c => getKey c "publishedfileid")) := rfl

theorem pipelineLines_eq (remote : Remote) (cid : String) :
    pipelineLines remote cid =
      (get_collection_item_ids remote cid >>= fun ids =>
        get_published_file_details remote ids >>= fun items =>
          buildSortedLines items) := rfl

theorem generate_maplist_eq_error (remote : Remote) (fs : FS) (cid od : String)
    (e : Err) (h : pipelineLines remote cid = .error e) :
    generate_maplist remote fs cid od = (fs, .error e) := by
  simp only [generate_maplist, h]

theorem generate_maplist_eq_ok (remote : Remote) (fs : FS) (cid od : String)
    (lines : List String) (h : pipelineLines remote cid = .ok lines) :
    generate_maplist remote fs cid od =
      (writeFile (makedirs od fs) (pathJoin od "maplist.txt")
        (String.intercalate "\n" lines),
       .ok (pathJoin od "maplist.txt")) := by
  simp only [generate_maplist, h]

theorem pipelineLines_ok_iff (remote : Remote) (cid : String)
    (lines : List String) :
    pipelineLines remote cid = .ok lines ↔
      ∃ ids, get_collection_item_ids remote cid = .ok ids
        ∧ ∃ items, get_published_file_details remote ids = .ok items
          ∧ buildSortedLines items = .ok lines := by
  rw [pipelineLines_eq, exceptBind_eq_ok]
  constructor
  · rintro ⟨ids, hids, h⟩
    rw [exceptBind_eq_ok] at h
    exact ⟨ids, hids, h⟩
  · rintro ⟨ids, hids, h⟩
    exact ⟨ids, hids, by rw [exceptBind_eq_ok]; exact h⟩

theorem buildSortedLines_ok_iff (items : List Json) (lines : List String) :
    buildSortedLines items = .ok lines ↔
      ∃ raw, buildLines items = .ok raw ∧ lines = sortStrings raw := by
  have hshow : buildSortedLines items =
      (buildLines items >>= fun raw => Except.ok (sortStrings raw)) := rfl
  rw [hshow, exceptBind_eq_ok]
  constructor
  · rintro ⟨raw, hraw, h⟩
    cases h
    exact ⟨raw, hraw, rfl⟩
  · rintro ⟨raw, hraw, rfl⟩
    exact ⟨raw, hraw, rfl⟩

theorem buildLines_ok_iff (items : List Json) (raw : List String) :
    buildLines items = .ok raw ↔
      ∃ opts, items.mapM renderItem = .ok opts ∧ raw = opts.filterMap id := by
  have hshow : buildLines items =
      (items.mapM renderItem >>= fun opts => Except.ok (opts.filterMap id)) := rfl
  rw [hshow, exceptBind_eq_ok]
  constructor
  · rintro ⟨opts, hopts, h⟩
    cases h
    exact ⟨opts, hopts, rfl⟩
  · rintro ⟨opts, hopts, rfl⟩
    exact ⟨opts, hopts, rfl⟩

theorem httpPost_of_transportFails (res : HttpResult) (h : transportFails res) :
    ∃ e, httpPost res = .error e ∧ e.isTransport = true := by
  rcases h with rfl | ⟨s, b, rfl, h1, h2⟩
  · exact ⟨.connectionError, rfl, rfl⟩
  · refine ⟨.httpError s, ?_, rfl⟩
    simp only [httpPost, if_pos (And.intro h1 h2)]

theorem buildLines_perm {items₁ items₂ : List Json} (hp : items₁.Perm items₂)
    {raw₁ : List String} (h₁ : buildLines items₁ = .ok raw₁) :
    ∃ raw₂, buildLines items₂ = .ok raw₂ ∧ raw₁.Perm raw₂ := by
  rw [buildLines_ok_iff] at h₁
  obtain ⟨opts₁, hopts₁, rfl⟩ := h₁
  obtain ⟨opts₂, hopts₂, hperm⟩ := mapM_perm renderItem hp hopts₁
  exact ⟨opts₂.filterMap id, by rw [buildLines_ok_iff]; exact ⟨opts₂, hopts₂, rfl⟩,
    hperm.filterMap id⟩

theorem runBatches_perm (R₁ R₂ : Remote)
    (hdet : ∀ d, detailBatchRecords (R₁.details d) = detailBatchRecords (R₂.details d)
      ∨ ∃ l₁ l₂, detailBatchRecords (R₁.details d) = .ok l₁
          ∧ detailBatchRecords (R₂.details d) = .ok l₂ ∧ l₁.Perm l₂)
    (bs : List (List Json)) (recs₁ : List Json)
    (h₁ : (runBatches R₁ bs).2 = .ok recs₁) :
    ∃ recs₂, (runBatches R₂ bs).2 = .ok recs₂ ∧ recs₁.Perm recs₂ := by
  induction bs generalizing recs₁ with
  | nil =>
      simp only [runBatches] at h₁ ⊢
      cases h₁
      exact ⟨[], rfl, List.Perm.refl []⟩
  | cons b bs ih =>
      rcases hd₁ : detailBatchRecords (R₁.details (batchRequestData b)) with e | l₁
      · simp only [runBatches, hd₁] at h₁
        exact Except.noConfusion h₁
      · simp only [runBatches, hd₁] at h₁
        rcases hrest₁ : (runBatches R₁ bs).2 with e | rs₁
        · rw [hrest₁] at h₁
          simp at h₁
        · rw [hrest₁] at h₁
          cases h₁
          obtain ⟨rs₂, hrs₂, hpermr⟩ := ih rs₁ hrest₁
          rcases hdet (batchRequestData b) with heq | ⟨l₁', l₂, he₁, he₂, hperm⟩
          · refine ⟨l₁ ++ rs₂, ?_, List.Perm.append (List.Perm.refl l₁) hpermr⟩
            simp only [runBatches, ← heq, hd₁, hrs₂]
          · rw [hd₁] at he₁
            injection he₁ with he₁
            subst he₁
            refine ⟨l₂ ++ rs₂, ?_, List.Perm.append hperm hpermr⟩
            simp only [runBatches, he₂, hrs₂]

theorem gcii_congr (R₁ R₂ : Remote) (cid : String)
    (hcol : R₁.collection (collectionRequestData cid) =
      R₂.collection (collectionRequestData cid)) :
    get_collection_item_ids R₁ cid = get_collection_item_ids R₂ cid := by
  rw [get_collection_item_ids_eq, get_collection_item_ids_eq, hcol]

theorem exceptBind_ok_arg {α β : Type} (x : Except Err α) (f : α → Except Err β)
    (a : α) (h : x = .ok a) : (x >>= f) = f a := by
  rw [h]
  rfl

theorem detailBatchRecords_eq (res : HttpResult) :
    detailBatchRecords res =
      (httpPost res >>= fun body =>
        getKey body "response" >>= fun resp =>
          getKey resp "publishedfiledetails" >>= fun pfd => pyIter pfd) := rfl

theorem writeFile_files_self (fs : FS) (p c : String) :
    (writeFile fs p c).files p = some c := by
  simp [writeFile]

theorem writeFile_files_other (fs : FS) (p c q : String) (h : q ≠ p) :
    (writeFile fs p c).files q = fs.files q := by
  simp [writeFile, h]

theorem makedirs_mem (d : String) (fs : FS) : d ∈ (makedirs d fs).dirs := by
  unfold makedirs
  by_cases h : d ∈ fs.dirs
  · rw [if_pos h]
    exact h
  · rw [if_neg h]
    exact List.mem_cons_self d fs.dirs

theorem getKey_ok_hasField (j : Json) (k : String) (v : Json)
    (h : getKey j k = .ok v) : hasField j k = true := by
  cases j with
  | obj kvs =>
      simp only [getKey] at h
      simp only [hasField]
      rcases hlk : kvs.lookup k with _ | w
      · rw [hlk] at h
        exact Except.noConfusion h
      · rfl
  | null => exact Except.noConfusion h
  | bool b => exact Except.noConfusion h
  | num n => exact Except.noConfusion h
  | str s => exact Except.noConfusion h
  | arr l => exact Except.noConfusion h

theorem hasField_getKey_ok (j : Json) (k : String)
    (h : hasField j k = true) : ∃ v, getKey j k = .ok v := by
  cases j with
  | obj kvs =>
      simp only [hasField] at h
      rcases hlk : kvs.lookup k with _ | w
      · rw [hlk] at h
        exact Bool.noConfusion h
      · exact ⟨w, by simp only [getKey]; rw [hlk]⟩
  | null => exact Bool.noConfusion h
  | bool b => exact Bool.noConfusion h
  | num n => exact Bool.noConfusion h
  | str s => exact Bool.noConfusion h
  | arr l => exact Bool.noConfusion h

theorem headIsSep_append (a b : String) (h : headIsSep a = true) :
    headIsSep (a ++ b) = true := by
  unfold headIsSep at h ⊢
  rw [beq_iff_eq] at h ⊢
  rw [String.data_append]
  rcases hd : a.data with _ | ⟨c, t⟩
  · rw [hd] at h
    exact Option.noConfusion h
  · rw [hd] at h
    simp only [List.head?] at h
    simpa using h

theorem pathJoin_absolute (od b : String) (hb : headIsSep b = false)
    (h : isAbsolutePath od = true) :
    isAbsolutePath (pathJoin od b) = true := by
  unfold isAbsolutePath at h ⊢
  unfold pathJoin
  rw [if_neg (by rw [hb]; exact Bool.noConfusion)]
  by_cases hod : od = ""
  · rw [hod] at h
    exact Bool.noConfusion h
  · rw [if_neg hod]
    by_cases hlast : lastIsSep od = true
    · rw [if_pos hlast]
      exact headIsSep_append od b h
    · rw [if_neg hlast]
      exact headIsSep_append (od ++ "/") b (headIsSep_append od "/" h)

/-! ### Claim theorems -/

/-- C1: whenever `get_published_file_details` completes without raising, it
issues exactly `⌈n / BATCH_SIZE⌉` detail requests; the form data of the k-th
request is `batchRequestData` of exactly the input slice
`[k·BATCH_SIZE, min((k+1)·BATCH_SIZE, n))` in original order — so `itemcount`
is the chunk length and every member ID sits at its positionally-indexed
`publishedfileids[i]` field — and the chunks concatenated in request order
are exactly the input: batching loses nothing and duplicates nothing. -/
theorem detail_batcher_requests (remote : Remote) (ids : List Json)
    (h : (get_published_file_details remote ids).isOk = true) :
    (detailRequests remote ids).length =
        (ids.length + BATCH_SIZE - 1) / BATCH_SIZE
    ∧ (∀ k, k < (detailRequests remote ids).length →
        (detailRequests remote ids)[k]? =
          some (batchRequestData ((ids.drop (BATCH_SIZE * k)).take BATCH_SIZE)))
    ∧ (batchChunks ids).flatten = ids := by
  have hreq : detailRequests remote ids =
      (batchChunks ids).map batchRequestData :=
    runBatches_fst_of_ok remote (batchChunks ids) h
  refine ⟨?_, ?_, batchChunks_flatten ids⟩
  · rw [hreq, List.length_map, batchChunks_length]
  · intro k hk
    rw [hreq] at hk ⊢
    rw [List.length_map] at hk
    rw [List.getElem?_map, batchChunks_getElem ids k hk]
    rfl

/-- Witness for C1: a concrete successful two-ID run. -/
theorem detail_batcher_requests_witness :
    (get_published_file_details okRemote [Json.str "1", Json.str "2"]).isOk = true
    ∧ ((detailRequests okRemote [Json.str "1", Json.str "2"]).length =
          (([Json.str "1", Json.str "2"] : List Json).length + BATCH_SIZE - 1) /
            BATCH_SIZE
      ∧ (∀ k, k < (detailRequests okRemote [Json.str "1", Json.str "2"]).length →
          (detailRequests okRemote [Json.str "1", Json.str "2"])[k]? =
            some (batchRequestData
              (([Json.str "1", Json.str "2"].drop (BATCH_SIZE * k)).take
                BATCH_SIZE)))
      ∧ (batchChunks [Json.str "1", Json.str "2"]).flatten =
          [Json.str "1", Json.str "2"]) :=
  ⟨rfl, detail_batcher_requests okRemote [Json.str "1", Json.str "2"] rfl⟩

/-- C2 counterexample: when the aggregated records contain two records that
render to the same string, `sorted` keeps both, so the manifest lines are
neither strictly increasing nor duplicate-free, and the written file repeats
the line — refuting "no duplicate lines". -/
theorem sorted_lines_duplicates_counterexample :
    buildSortedLines [detailRecord "a" "1", detailRecord "a" "1"] =
      .ok ["a:1", "a:1"]
    ∧ ¬ (["a:1", "a:1"] : List String).Nodup
    ∧ (generate_maplist dupRemote fs0 "7" "out").1.files "out/maplist.txt" =
        some "a:1\na:1" := by
  refine ⟨rfl, ?_, rfl⟩
  decide

/-- C2 amended: the manifest lines produced by `generate_maplist` (lines
57-60) are in non-decreasing code-point lexicographic order, and are exactly
a permutation of the rendered surviving records — duplicates are kept, not
removed. -/
theorem sorted_lines_order (items : List Json) (lines : List String)
    (h : buildSortedLines items = .ok lines) :
    lines.Sorted (fun a b => strLeB a b = true)
    ∧ ∃ raw, buildLines items = .ok raw ∧ lines.Perm raw := by
  rw [buildSortedLines_ok_iff] at h
  obtain ⟨raw, hraw, rfl⟩ := h
  exact ⟨sortStrings_sorted raw, raw, hraw, sortStrings_perm raw⟩

/-- Witness for the amended C2 at a concrete two-record input. -/
theorem sorted_lines_order_witness :
    buildSortedLines [detailRecord "b" "2", detailRecord "a" "1"] =
      .ok ["a:1", "b:2"]
    ∧ ((["a:1", "b:2"] : List String).Sorted (fun a b => strLeB a b = true)
      ∧ ∃ raw, buildLines [detailRecord "b" "2", detailRecord "a" "1"] = .ok raw
          ∧ (["a:1", "b:2"] : List String).Perm raw) :=
  ⟨rfl, sorted_lines_order [detailRecord "b" "2", detailRecord "a" "1"]
    ["a:1", "b:2"] rfl⟩

/-- C3 counterexample: a record whose title is only whitespace is truthy in
Python, so `item.get("title")` does NOT filter it out; it survives and
renders as `":5"` in the manifest — refuting "empty after trimming never
appears". -/
theorem whitespace_title_counterexample :
    renderItem wsTitleRecord = .ok (some ":5")
    ∧ buildSortedLines [wsTitleRecord] = .ok [":5"] :=
  ⟨rfl, rfl⟩

/-- C3 amended: a record is excluded exactly when its title is absent or
Python-falsy — for a string title, empty BEFORE trimming; a surviving string
title `t` renders as `strip(t) ++ ":" ++ str(id)`, so `"  Dust2  "` renders
as `"Dust2:9"`, while a whitespace-only title survives and renders as
`":id"`. -/
theorem title_filter_renders (t : String) (fid : Json) :
    renderItem (mkRecord t fid) =
      .ok (if t = "" then none else some (pyStrip t ++ ":" ++ pyStr fid))
    ∧ (∀ g : Json, renderItem (Json.obj [("publishedfileid", g)]) = .ok none)
    ∧ renderItem (mkRecord "  Dust2  " (Json.str "9")) = .ok (some "Dust2:9") := by
  refine ⟨?_, fun g => rfl, rfl⟩
  by_cases ht : t = ""
  · subst ht
    rfl
  · rw [if_neg ht]
    have hred : renderItem (mkRecord t fid) =
        (if pyTruthy (Json.str t) = true then
          Except.ok (some (pyStrip t ++ ":" ++ pyStr fid))
        else Except.ok none) := rfl
    rw [hred, if_pos (by simp [pyTruthy, ht])]

/-- C4 counterexample: the collection endpoint answers with the non-2xx
status 300 and a valid body.  `raise_for_status` raises only for 4xx/5xx, so
the run does NOT abort: it completes and writes a manifest file — refuting
"any non-2xx status aborts before touching the filesystem". -/
theorem non2xx_no_abort_counterexample :
    status300Remote.collection (collectionRequestData "7") =
      .response 300 (collectionBody [childEntry "1"])
    ∧ ¬ (200 ≤ 300 ∧ 300 ≤ 299)
    ∧ (generate_maplist status300Remote fs0 "7" "out").2 = .ok "out/maplist.txt"
    ∧ (generate_maplist status300Remote fs0 "7" "out").1.files "out/maplist.txt" =
        some "a:1" :=
  ⟨rfl, by omega, rfl, rfl⟩

/-- C4 amended: (a) whenever `generate_maplist` propagates any exception the
caller's filesystem is returned untouched — no directory created, no file
written, all partial progress discarded; (b) a network failure or a 4xx/5xx
status (the statuses `raise_for_status` raises for) on the collection request
aborts the run with that transport error and an untouched filesystem; (c) the
same holds when any detail batch's request fails that way after the batches
before it parsed fine. -/
theorem transport_failure_all_or_nothing (remote : Remote) (fs : FS)
    (cid od : String) :
    (∀ e, (generate_maplist remote fs cid od).2 = .error e →
        (generate_maplist remote fs cid od).1 = fs)
    ∧ (transportFails (remote.collection (collectionRequestData cid)) →
        ∃ e, e.isTransport = true
          ∧ generate_maplist remote fs cid od = (fs, .error e))
    ∧ (∀ ids pre b post,
        get_collection_item_ids remote cid = .ok ids →
        batchChunks ids = pre ++ b :: post →
        (∀ b' ∈ pre,
          (detailBatchRecords (remote.details (batchRequestData b'))).isOk = true) →
        transportFails (remote.details (batchRequestData b)) →
        ∃ e, e.isTransport = true
          ∧ generate_maplist remote fs cid od = (fs, .error e)) := by
  refine ⟨?_, ?_, ?_⟩
  · intro e he
    rcases hp : pipelineLines remote cid with e' | lines
    · rw [generate_maplist_eq_error remote fs cid od e' hp]
    · rw [generate_maplist_eq_ok remote fs cid od lines hp] at he
      exact Except.noConfusion he
  · intro htf
    obtain ⟨e, he, ht⟩ :=
      httpPost_of_transportFails (remote.collection (collectionRequestData cid)) htf
    refine ⟨e, ht, ?_⟩
    apply generate_maplist_eq_error
    rw [pipelineLines_eq]
    apply exceptBind_error
    rw [get_collection_item_ids_eq]
    exact exceptBind_error _ _ _ he
  · intro ids pre b post hids hchunks hpre htf
    obtain ⟨e, he, ht⟩ :=
      httpPost_of_transportFails (remote.details (batchRequestData b)) htf
    have hbatch : detailBatchRecords (remote.details (batchRequestData b)) =
        .error e := by
      rw [detailBatchRecords_eq]
      exact exceptBind_error _ _ _ he
    have hrun : (runBatches remote (batchChunks ids)).2 = .error e := by
      rw [hchunks]
      exact runBatches_error_after_ok_prefix remote pre b post e hpre hbatch
    refine ⟨e, ht, ?_⟩
    apply generate_maplist_eq_error
    rw [pipelineLines_eq, exceptBind_ok_arg _ _ _ hids]
    exact exceptBind_error _ _ _ hrun

/-- Witness for the amended C4: an HTTP 404 on the collection request aborts
with a transport error and leaves the filesystem untouched. -/
theorem transport_failure_all_or_nothing_witness :
    transportFails (notFoundRemote.collection (collectionRequestData "7"))
    ∧ ∃ e, e.isTransport = true
        ∧ generate_maplist notFoundRemote fs0 "7" "out" = (fs0, .error e) := by
  have htf : transportFails (notFoundRemote.collection (collectionRequestData "7")) :=
    Or.inr ⟨404, .null, rfl, by omega, by omega⟩
  exact ⟨htf, (transport_failure_all_or_nothing notFoundRemote fs0 "7" "out").2.1 htf⟩

/-- C5 counterexample: a 200 response whose JSON body lacks
`collectiondetails` makes `get_collection_item_ids` fail with the generic
indexing fault `KeyError "collectiondetails"`, not with the spec's dedicated
`MalformedResponseError`. -/
theorem resolver_generic_fault_counterexample :
    get_collection_item_ids badShapeRemote "42" =
      .error (.keyError "collectiondetails")
    ∧ get_collection_item_ids badShapeRemote "42" ≠
        .error .malformedResponse := by
  refine ⟨rfl, ?_⟩
  intro hcontra
  rw [show get_collection_item_ids badShapeRemote "42" =
      .error (.keyError "collectiondetails") from rfl] at hcontra
  simp at hcontra

/-- C5 amended: when the collection request yields a parsed body on which the
descent `response.collectiondetails[0].children` fails, the resolver fails
with exactly that error, which is always a generic indexing fault (`KeyError`
/ `IndexError` / `TypeError`) and never `MalformedResponseError`. -/
theorem resolver_fails_with_indexing_fault (remote : Remote) (cid : String)
    (body : Json) (e : Err)
    (hb : httpPost (remote.collection (collectionRequestData cid)) = .ok body)
    (he : extractChildren body = .error e) :
    get_collection_item_ids remote cid = .error e
    ∧ e.isIndexingFault = true
    ∧ get_collection_item_ids remote cid ≠ .error .malformedResponse := by
  have hfault := extractChildren_error_isIndexingFault body e he
  have hmain : get_collection_item_ids remote cid = .error e := by
    rw [get_collection_item_ids_eq, exceptBind_ok_arg _ _ _ hb]
    exact exceptBind_error _ _ _ he
  refine ⟨hmain, hfault, ?_⟩
  intro hcontra
  rw [hmain] at hcontra
  injection hcontra with h'
  rw [h'] at hfault
  exact Bool.noConfusion hfault

/-- Witness for the amended C5 at the concrete malformed body. -/
theorem resolver_fails_with_indexing_fault_witness :
    httpPost (badShapeRemote.collection (collectionRequestData "42")) =
      .ok (Json.obj [("response", Json.obj [])])
    ∧ extractChildren (Json.obj [("response", Json.obj [])]) =
        .error (.keyError "collectiondetails")
    ∧ (get_collection_item_ids badShapeRemote "42" =
          .error (.keyError "collectiondetails")
      ∧ (Err.keyError "collectiondetails").isIndexingFault = true
      ∧ get_collection_item_ids badShapeRemote "42" ≠
          .error .malformedResponse) :=
  ⟨rfl, rfl, resolver_fails_with_indexing_fault badShapeRemote "42"
    (Json.obj [("response", Json.obj [])]) (.keyError "collectiondetails")
    rfl rfl⟩

/-- C6: on the empty member-ID sequence the Detail Batcher issues zero
requests and returns the empty sequence, the Manifest Builder produces no
lines, and — when the resolved collection is empty — `generate_maplist`
writes a zero-byte `maplist.txt`. -/
theorem empty_collection_empty_file (remote : Remote) (fs : FS)
    (cid od : String) (h : get_collection_item_ids remote cid = .ok []) :
    detailRequests remote [] = []
    ∧ get_published_file_details remote [] = .ok []
    ∧ buildSortedLines [] = .ok []
    ∧ (generate_maplist remote fs cid od).2 = .ok (pathJoin od "maplist.txt")
    ∧ (generate_maplist remote fs cid od).1.files (pathJoin od "maplist.txt") =
        some "" := by
  have hpipe : pipelineLines remote cid = .ok [] := by
    rw [pipelineLines_eq, exceptBind_ok_arg _ _ _ h]
    rfl
  have hgen := generate_maplist_eq_ok remote fs cid od [] hpipe
  refine ⟨rfl, rfl, rfl, ?_, ?_⟩
  · rw [hgen]
  · rw [hgen]
    exact writeFile_files_self _ _ _

/-- Witness for C6 at a concrete empty collection. -/
theorem empty_collection_empty_file_witness :
    get_collection_item_ids emptyCollectionRemote "7" = .ok []
    ∧ (detailRequests emptyCollectionRemote [] = []
      ∧ get_published_file_details emptyCollectionRemote [] = .ok []
      ∧ buildSortedLines [] = .ok []
      ∧ (generate_maplist emptyCollectionRemote fs0 "7" "out").2 =
          .ok (pathJoin "out" "maplist.txt")
      ∧ (generate_maplist emptyCollectionRemote fs0 "7" "out").1.files
          (pathJoin "out" "maplist.txt") = some "") :=
  ⟨rfl, empty_collection_empty_file emptyCollectionRemote fs0 "7" "out" rfl⟩

/-- C7 counterexample: with the relative output directory `"out"`, a
successful run returns `"out/maplist.txt"`, which is not an absolute path —
refuting "returns the absolute path of the file written"
(`os.path.join` does not absolutise). -/
theorem relative_path_counterexample :
    (generate_maplist emptyCollectionRemote fs0 "7" "out").2 =
      .ok "out/maplist.txt"
    ∧ isAbsolutePath "out/maplist.txt" = false :=
  ⟨rfl, rfl⟩

/-- C7 amended: on success `generate_maplist` returns the path
`os.path.join(output_dir, "maplist.txt")` — absolute only when the supplied
directory is —, has created the output directory, and has written at that
path exactly the manifest lines joined by a single newline, with no trailing
newline and no header. -/
theorem output_file_written (remote : Remote) (fs : FS) (cid od p : String)
    (h : (generate_maplist remote fs cid od).2 = .ok p) :
    p = pathJoin od "maplist.txt"
    ∧ od ∈ (generate_maplist remote fs cid od).1.dirs
    ∧ (∃ lines, pipelineLines remote cid = .ok lines
        ∧ (generate_maplist remote fs cid od).1.files p =
            some (String.intercalate "\n" lines))
    ∧ (isAbsolutePath od = true → isAbsolutePath p = true) := by
  rcases hp : pipelineLines remote cid with e | lines
  · rw [generate_maplist_eq_error remote fs cid od e hp] at h
    exact Except.noConfusion h
  · have hgen := generate_maplist_eq_ok remote fs cid od lines hp
    rw [hgen] at h
    injection h with h
    subst h
    refine ⟨rfl, ?_, ⟨lines, hp ▸ rfl, ?_⟩, ?_⟩
    · rw [hgen]
      exact makedirs_mem od fs
    · rw [hgen]
      exact writeFile_files_self _ _ _
    · intro habs
      exact pathJoin_absolute od "maplist.txt" rfl habs

/-- Witness for the amended C7 at a concrete absolute output directory. -/
theorem output_file_written_witness :
    (generate_maplist emptyCollectionRemote fs0 "7" "/srv").2 =
      .ok "/srv/maplist.txt"
    ∧ ("/srv/maplist.txt" = pathJoin "/srv" "maplist.txt"
      ∧ "/srv" ∈ (generate_maplist emptyCollectionRemote fs0 "7" "/srv").1.dirs
      ∧ (∃ lines, pipelineLines emptyCollectionRemote "7" = .ok lines
          ∧ (generate_maplist emptyCollectionRemote fs0 "7" "/srv").1.files
              "/srv/maplist.txt" = some (String.intercalate "\n" lines))
      ∧ (isAbsolutePath "/srv" = true →
          isAbsolutePath "/srv/maplist.txt" = true)) :=
  ⟨rfl, output_file_written emptyCollectionRemote fs0 "7" "/srv"
    "/srv/maplist.txt" rfl⟩

/-- C8: two runs against the same remote state — same collection response,
and per-request detail responses that agree up to a permutation of the
records inside each batch response — produce the same returned path and
byte-identical filesystem contents; in particular the manifest bytes do not
depend on intra-batch response ordering. -/
theorem deterministic_manifest (R₁ R₂ : Remote) (fs : FS) (cid od p : String)
    (hcol : R₁.collection (collectionRequestData cid) =
        R₂.collection (collectionRequestData cid))
    (hdet : ∀ d, detailBatchRecords (R₁.details d) = detailBatchRecords (R₂.details d)
      ∨ ∃ l₁ l₂, detailBatchRecords (R₁.details d) = .ok l₁
          ∧ detailBatchRecords (R₂.details d) = .ok l₂ ∧ l₁.Perm l₂)
    (h₁ : (generate_maplist R₁ fs cid od).2 = .ok p) :
    (generate_maplist R₂ fs cid od).2 = .ok p
    ∧ (generate_maplist R₂ fs cid od).1.files =
        (generate_maplist R₁ fs cid od).1.files := by
  rcases hp₁ : pipelineLines R₁ cid with e | lines₁
  · rw [generate_maplist_eq_error R₁ fs cid od e hp₁] at h₁
    exact Except.noConfusion h₁
  · have hgen₁ := generate_maplist_eq_ok R₁ fs cid od lines₁ hp₁
    rw [hgen₁] at h₁
    injection h₁ with h₁
    subst h₁
    rw [pipelineLines_ok_iff] at hp₁
    obtain ⟨ids, hids₁, items₁, hitems₁, hsort₁⟩ := hp₁
    have hids₂ : get_collection_item_ids R₂ cid = .ok ids := by
      rw [← gcii_congr R₁ R₂ cid hcol]
      exact hids₁
    obtain ⟨items₂, hitems₂, hpermitems⟩ :=
      runBatches_perm R₁ R₂ hdet (batchChunks ids) items₁ hitems₁
    rw [buildSortedLines_ok_iff] at hsort₁
    obtain ⟨raw₁, hraw₁, rfl⟩ := hsort₁
    obtain ⟨raw₂, hraw₂, hpermraw⟩ := buildLines_perm hpermitems hraw₁
    have hsort₂ : buildSortedLines items₂ = .ok (sortStrings raw₁) := by
      rw [buildSortedLines_ok_iff]
      exact ⟨raw₂, hraw₂, sortStrings_eq_of_perm hpermraw⟩
    have hpipe₂ : pipelineLines R₂ cid = .ok (sortStrings raw₁) := by
      rw [pipelineLines_ok_iff]
      exact ⟨ids, hids₂, items₂, hitems₂, hsort₂⟩
    have hgen₂ := generate_maplist_eq_ok R₂ fs cid od (sortStrings raw₁) hpipe₂
    constructor
    · rw [hgen₂]
    · rw [hgen₁, hgen₂]

/-- Witness for C8: the same remote state with the two records swapped inside
the single batch response yields the identical file map. -/
theorem deterministic_manifest_witness :
    okRemote.collection (collectionRequestData "7") =
      okRemoteSwapped.collection (collectionRequestData "7")
    ∧ (generate_maplist okRemote fs0 "7" "out").2 = .ok "out/maplist.txt"
    ∧ ((generate_maplist okRemoteSwapped fs0 "7" "out").2 = .ok "out/maplist.txt"
      ∧ (generate_maplist okRemoteSwapped fs0 "7" "out").1.files =
          (generate_maplist okRemote fs0 "7" "out").1.files) := by
  have hdet : ∀ d, detailBatchRecords (okRemote.details d) =
        detailBatchRecords (okRemoteSwapped.details d)
      ∨ ∃ l₁ l₂, detailBatchRecords (okRemote.details d) = .ok l₁
          ∧ detailBatchRecords (okRemoteSwapped.details d) = .ok l₂
          ∧ l₁.Perm l₂ := by
    intro d
    right
    exact ⟨[detailRecord "b" "2", detailRecord "a" "1"],
      [detailRecord "a" "1", detailRecord "b" "2"], rfl, rfl,
      List.Perm.swap (detailRecord "a" "1") (detailRecord "b" "2") []⟩
  exact ⟨rfl, rfl,
    deterministic_manifest okRemote okRemoteSwapped fs0 "7" "out"
      "out/maplist.txt" rfl hdet rfl⟩

/-- C9: when the collection body parses and its `children` entry is a JSON
array, the resolver succeeds exactly when every child carries a
`publishedfileid` field (a child missing it raises instead of being skipped
or defaulted), and on success it returns exactly one member ID per child. -/
theorem missing_child_id_raises (remote : Remote) (cid : String)
    (body : Json) (cs : List Json)
    (hb : httpPost (remote.collection (collectionRequestData cid)) = .ok body)
    (hc : extractChildren body = .ok (.arr cs)) :
    ((∃ ids, get_collection_item_ids remote cid = .ok ids) ↔
        ∀ c ∈ cs, hasField c "publishedfileid" = true)
    ∧ ∀ ids, get_collection_item_ids remote cid = .ok ids →
        ids.length = cs.length := by
  have hmain : get_collection_item_ids remote cid =
      cs.mapM (fun c => getKey c "publishedfileid") := by
    rw [get_collection_item_ids_eq, exceptBind_ok_arg _ _ _ hb,
      exceptBind_ok_arg _ _ _ hc]
    rfl
  rw [hmain]
  constructor
  · constructor
    · rintro ⟨ids, hids⟩ c hcmem
      obtain ⟨v, hv⟩ := mapM_ok_forall _ cs ids hids c hcmem
      exact getKey_ok_hasField c _ v hv
    · intro hall
      apply mapM_ok_exists
      intro c hcmem
      exact hasField_getKey_ok c _ (hall c hcmem)
  · intro ids hids
    exact mapM_ok_length _ cs ids hids

/-- Witness for C9: a concrete collection whose single child lacks
`publishedfileid`; the resolver indeed cannot succeed there. -/
theorem missing_child_id_raises_witness :
    httpPost (noFidChildRemote.collection (collectionRequestData "7")) =
      .ok (collectionBody [Json.obj [("title", Json.str "x")]])
    ∧ extractChildren (collectionBody [Json.obj [("title", Json.str "x")]]) =
        .ok (.arr [Json.obj [("title", Json.str "x")]])
    ∧ (((∃ ids, get_collection_item_ids noFidChildRemote "7" = .ok ids) ↔
          ∀ c ∈ [Json.obj [("title", Json.str "x")]],
            hasField c "publishedfileid" = true)
      ∧ ∀ ids, get_collection_item_ids noFidChildRemote "7" = .ok ids →
          ids.length = [Json.obj [("title", Json.str "x")]].length) :=
  ⟨rfl, rfl, missing_child_id_raises noFidChildRemote "7"
    (collectionBody [Json.obj [("title", Json.str "x")]])
    [Json.obj [("title", Json.str "x")]] rfl rfl⟩

/-- C10: `generate_maplist` writes through mode `"w"`: on success every path
other than the output file is untouched, and the content written at the
output path is completely determined by the remote data — whatever
`maplist.txt` previously held at that path, any prior filesystem yields the
same successful result and the same new content, so a preexisting file is
replaced wholesale. -/
theorem write_replaces_only_manifest (remote : Remote) (fs : FS)
    (cid od p : String) (h : (generate_maplist remote fs cid od).2 = .ok p) :
    (∀ q, q ≠ p → (generate_maplist remote fs cid od).1.files q = fs.files q)
    ∧ ∃ c, (generate_maplist remote fs cid od).1.files p = some c
        ∧ ∀ fs' : FS, (generate_maplist remote fs' cid od).2 = .ok p
            ∧ (generate_maplist remote fs' cid od).1.files p = some c := by
  rcases hp : pipelineLines remote cid with e | lines
  · rw [generate_maplist_eq_error remote fs cid od e hp] at h
    exact Except.noConfusion h
  · have hgen := generate_maplist_eq_ok remote fs cid od lines hp
    rw [hgen] at h
    injection h with h
    subst h
    constructor
    · intro q hq
      rw [hgen]
      rw [writeFile_files_other _ _ _ _ hq]
      rfl
    · refine ⟨String.intercalate "\n" lines, ?_, ?_⟩
      · rw [hgen]
        exact writeFile_files_self _ _ _
      · intro fs'
        have hgen' := generate_maplist_eq_ok remote fs' cid od lines hp
        exact ⟨by rw [hgen'], by rw [hgen']; exact writeFile_files_self _ _ _⟩

/-- Witness for C10 at a concrete successful run. -/
theorem write_replaces_only_manifest_witness :
    (generate_maplist okRemote fs0 "7" "out").2 = .ok "out/maplist.txt"
    ∧ ((∀ q, q ≠ "out/maplist.txt" →
          (generate_maplist okRemote fs0 "7" "out").1.files q = fs0.files q)
      ∧ ∃ c, (generate_maplist okRemote fs0 "7" "out").1.files "out/maplist.txt" =
            some c
          ∧ ∀ fs' : FS, (generate_maplist okRemote fs' "7" "out").2 =
                .ok "out/maplist.txt"
              ∧ (generate_maplist okRemote fs' "7" "out").1.files
                  "out/maplist.txt" = some c) :=
  ⟨rfl, write_replaces_only_manifest okRemote fs0 "7" "out" "out/maplist.txt" rfl⟩
